import Mathlib

/-!
Verification of the defora web control server's control/modulation pipeline.

Shallow embedding of:
  * `docker/web/controlMapping.js`  (mapControl and its registries)
  * `docker/web/motionPresets.js`   (motionPresetPayload)
  * `docker/web/controlnetMapping.js` (controlnetPayload)
  * the WebSocket message handler of the server entry point
    (`src/unnamed/part_000`, lines 285–325; the token gate also mirrors
    `docker/web/server.js`, lines 513–537)
  * the `/api/lfo/preview` waveform generator
    (`src/unnamed/part_000`, lines 116–135)

JavaScript values are modelled by `JSValue`; JS numbers by `JNum`, a rational
together with the non-finite values NaN, Infinity and -Infinity (binary floating
point rounding is not modelled: none of the verified properties depend on it).
JS exceptions (TypeError on property access of null/undefined) are modelled by
`Except Unit`.
-/

/-- JS number: a finite rational, or one of the non-finite specials. -/
inductive JNum where
  | fin (q : ℚ)
  | nan
  | inf
  | ninf
deriving DecidableEq, Repr

/-- JSON-like JavaScript value (plus `undefined`, which JSON lacks but
property access produces). Objects are insertion-ordered association lists,
as JS objects are; a JS object cannot hold a duplicate key. -/
inductive JSValue where
  | null
  | undefined
  | bool (b : Bool)
  | num (n : JNum)
  | str (s : String)
  | arr (elems : List JSValue)
  | obj (fields : List (String × JSValue))

/-- JS truthiness: `false`, `0`, `NaN`, `""`, `null`, `undefined` are falsy;
every object and array (even empty) is truthy. -/
def jsTruthy : JSValue → Bool
  | .null => false
  | .undefined => false
  | .bool b => b
  | .num (.fin q) => decide (q ≠ 0)
  | .num .nan => false
  | .num .inf => true
  | .num .ninf => true
  | .str s => decide (s ≠ "")
  | .arr _ => true
  | .obj _ => true

/-- `a || b` in JS. -/
def jsOr (a b : JSValue) : JSValue := if jsTruthy a then a else b

/-- Strict equality of a JS value against a string
(`v === s`): true only for the identical string primitive. -/
def isStr (v : JSValue) (s : String) : Bool :=
  match v with
  | .str t => decide (t = s)
  | _ => false

/-- `typeof v === "object"` — true for `null`, arrays and plain objects. -/
def typeofObject : JSValue → Bool
  | .null => true
  | .arr _ => true
  | .obj _ => true
  | _ => false

/-- Property access `v[k]`: throws TypeError on `null`/`undefined`; on other
primitives and on arrays the (non-index) properties used by this code read as
`undefined`; on objects it is first-match association-list lookup. -/
def getProp : JSValue → String → Except Unit JSValue
  | .null, _ => .error ()
  | .undefined, _ => .error ()
  | .obj l, k => .ok ((List.lookup k l).getD .undefined)
  | _, _ => .ok .undefined

/-- Value of a base-10 digit run. -/
def decVal (ds : List Char) : ℕ :=
  ds.foldl (fun a c => a * 10 + (c.toNat - 48)) 0

/-- Strip leading and trailing whitespace. -/
def trimChars (cs : List Char) : List Char :=
  ((cs.dropWhile Char.isWhitespace).reverse.dropWhile Char.isWhitespace).reverse

/-- Split at the first dot: characters before it, and (when a dot is present)
the characters after it. -/
def splitDot : List Char → List Char × Option (List Char)
  | [] => ([], none)
  | c :: rest =>
    if c = '.' then ([], some rest)
    else
      let p := splitDot rest
      (c :: p.1, p.2)

/-- String-to-number (`Number(string)`): the trimmed empty string is 0; an
optionally signed decimal literal parses; `Infinity` forms parse; everything
else is NaN. (Hex and exponent literal forms are not modelled; no verified
property depends on them.) -/
def strToNum (s : String) : JNum :=
  let t := trimChars s.toList
  if t.isEmpty then .fin 0
  else
    let sgn : ℚ := if t.head? = some '-' then -1 else 1
    let body := if t.head? = some '-' ∨ t.head? = some '+' then t.tail else t
    if body = "Infinity".toList then (if sgn = 1 then .inf else .ninf)
    else
      match splitDot body with
      | (i, none) =>
        if !i.isEmpty && i.all Char.isDigit then
          .fin (sgn * (decVal i : ℚ))
        else .nan
      | (i, some f) =>
        if (!i.isEmpty || !f.isEmpty) && i.all Char.isDigit && f.all Char.isDigit then
          .fin (sgn * ((decVal i : ℚ) + (decVal f : ℚ) / (10 : ℚ) ^ f.length))
        else .nan

/-- `Number(v)` conversion. Array/object ToPrimitive is approximated as NaN
(`Number({}) = NaN` in JS; array coercion via join is not modelled — no
verified property feeds an array where a number is expected). -/
def jsToNum : JSValue → JNum
  | .null => .fin 0
  | .undefined => .nan
  | .bool true => .fin 1
  | .bool false => .fin 0
  | .num n => n
  | .str s => strToNum s
  | .arr _ => .nan
  | .obj _ => .nan

/-- Rendering of a JS number as a string. Finite rationals use the Lean
rational printer (an approximation of JS float formatting — only ever used
where the result is compared against non-numeric preset names, so the exact
spelling is irrelevant). -/
def jnumToString : JNum → String
  | .fin q => toString q
  | .nan => "NaN"
  | .inf => "Infinity"
  | .ninf => "-Infinity"

/-- `String(v)` conversion. Array join is approximated by a sentinel; plain
objects stringify to `"[object Object]"` as in JS. -/
def jsToString : JSValue → String
  | .null => "null"
  | .undefined => "undefined"
  | .bool true => "true"
  | .bool false => "false"
  | .num n => jnumToString n
  | .str s => s
  | .arr _ => "[array]"
  | .obj _ => "[object Object]"

/-- `Object.entries(v)`: fields of an object; index/character entries for
arrays and strings; no own enumerable properties on other primitives.
(The source only ever applies it after `payload || {}`, so never to
`null`/`undefined`.) -/
def jsEntries : JSValue → List (String × JSValue)
  | .obj l => l
  | .arr xs => xs.enum.map (fun p => (toString p.1, p.2))
  | .str s => s.toList.enum.map (fun p => (toString p.1, .str p.2.toString))
  | _ => []

/-- JS property assignment `o[k] = v` on an association list: an existing key
is updated in place (insertion order kept), a new key is appended. -/
def objSet (l : List (String × JSValue)) (k : String) (v : JSValue) :
    List (String × JSValue) :=
  match l with
  | [] => [(k, v)]
  | (k', v') :: rest =>
    if k' = k then (k, v) :: rest else (k', v') :: objSet rest k v

section ControlMapping
/-! ## `docker/web/controlMapping.js` -/

/-- `PARAM_FLAGS` (controlMapping.js, lines 1–13). -/
def PARAM_FLAGS : List (String × String) :=
  [("strength", "should_use_deforumation_strength"),
   ("cfg", "should_use_deforumation_cfg"),
   ("cadence", "should_use_deforumation_cadence"),
   ("noise_multiplier", "should_use_deforumation_noise"),
   ("translation_x", "should_use_deforumation_panning"),
   ("translation_y", "should_use_deforumation_panning"),
   ("translation_z", "should_use_deforumation_zoom"),
   ("rotation_x", "should_use_deforumation_rotation"),
   ("rotation_y", "should_use_deforumation_rotation"),
   ("rotation_z", "should_use_deforumation_tilt"),
   ("fov", "should_use_deforumation_fov")]

/-- `PROMPT_FIELDS` (controlMapping.js, lines 15–26). -/
def PROMPT_FIELDS : List String :=
  ["positive_prompt", "negative_prompt", "positive_prompt_1",
   "positive_prompt_2", "negative_prompt_1", "prompt_mix",
   "should_use_deforumation_prompts", "should_use_before_deforum_prompt",
   "should_use_after_deforum_prompt",
   "should_use_deforumation_prompt_scheduling"]

/-- `LIVE_ALLOWED` (controlMapping.js, line 28). -/
def LIVE_ALLOWED : List String :=
  PARAM_FLAGS.map Prod.fst ++ ["steps", "seed", "start_frame", "should_resume"]

/-- `toNumber` (controlMapping.js, lines 32–35): `Number(val)` gated by
`Number.isFinite` (the string-trim ternary in the source selects the same
`Number(val)` in both branches). -/
def toNumber (v : JSValue) : Option ℚ :=
  match jsToNum v with
  | .fin q => some q
  | _ => none

/-- Result record of `mapControl`. -/
structure MapResult where
  controlType : String
  payload : JSValue
  valid : Bool
  detail : String

/-- The `liveParam` filtering loop (controlMapping.js, lines 39–45). -/
def liveClean : List (String × JSValue) → List (String × JSValue) →
    List (String × JSValue)
  | clean, [] => clean
  | clean, (k, v) :: rest =>
    if LIVE_ALLOWED.contains k then
      match toNumber v with
      | some q => liveClean (objSet clean k (.num (.fin q))) rest
      | none => liveClean clean rest
    else liveClean clean rest

/-- The `prompts` field-filtering loop (controlMapping.js, lines 50–58):
keeps registry-approved fields whose value is a boolean, number or string. -/
def promptClean : List (String × JSValue) → List (String × JSValue) →
    List (String × JSValue)
  | clean, [] => clean
  | clean, (k, v) :: rest =>
    if PROMPT_FIELDS.contains k then
      match v with
      | .bool b => promptClean (objSet clean k (.bool b)) rest
      | .num n => promptClean (objSet clean k (.num n)) rest
      | .str s => promptClean (objSet clean k (.str s)) rest
      | _ => promptClean clean rest
    else promptClean clean rest

/-- The prompt-schedule `.map` (controlMapping.js, lines 60–64): reading
`slot.t` / `slot.mix` throws on a null/undefined slot. -/
def slotsMap : List JSValue → Except Unit (List (JNum × JNum))
  | [] => .ok []
  | s :: rest => do
    let t ← getProp s "t"
    let m ← getProp s "mix"
    let tail ← slotsMap rest
    .ok ((jsToNum t, jsToNum m) :: tail)

/-- The schedule filter (controlMapping.js, line 65): keep entries with both
`t` and `mix` finite, re-packed as `{t, mix}` objects. -/
def filterSlots (l : List (JNum × JNum)) : List JSValue :=
  l.filterMap fun p =>
    match p with
    | (.fin t, .fin m) =>
      some (.obj [("t", .num (.fin t)), ("mix", .num (.fin m))])
    | _ => none

/-- `mapControl` (controlMapping.js, lines 37–85). The `payload = {}`
default-parameter applies when called with `undefined`. A thrown TypeError is
`Except.error ()`. -/
def mapControl (controlType : String) (rawPayload : JSValue) :
    Except Unit MapResult :=
  let payload := match rawPayload with | .undefined => .obj [] | p => p
  if controlType = "liveParam" then
    let clean := liveClean [] (jsEntries (jsOr payload (.obj [])))
    .ok ⟨controlType, .obj clean, !clean.isEmpty, "liveParam"⟩
  else if controlType = "prompts" then do
    let clean := promptClean [] (jsEntries (jsOr payload (.obj [])))
    let ps ← getProp payload "prompt_schedule"
    let clean ←
      match ps with
      | .arr slots => do
        let mapped ← slotsMap slots
        Except.ok (objSet clean "prompt_schedule" (.arr (filterSlots mapped)))
      | _ => Except.ok clean
    .ok ⟨controlType, .obj clean, !clean.isEmpty, "prompts"⟩
  else if controlType = "transport" then do
    let a ← getProp payload "action"
    let clean : List (String × JSValue) :=
      if jsTruthy a then [("action", .str (jsToString a).toLower)] else []
    let sf ← getProp payload "start_frame"
    let clean :=
      match sf with
      | .null => clean
      | .undefined => clean
      | v =>
        match toNumber v with
        | some q => objSet clean "start_frame" (.num (.fin q))
        | none => clean
    .ok ⟨controlType, .obj clean, !clean.isEmpty, "transport"⟩
  else if controlType = "motionPreset" ∨ controlType = "paramSource" ∨
      controlType = "motionStyle" then
    .ok ⟨controlType, jsOr payload (.obj []), true, controlType⟩
  else
    .ok ⟨controlType, .obj [], false, "unknown"⟩

end ControlMapping

section MotionPresets
/-! ## `docker/web/motionPresets.js` and `docker/web/controlnetMapping.js` -/

/-- JS multiplication on numbers. -/
def JNum.mul : JNum → JNum → JNum
  | .fin a, .fin b => .fin (a * b)
  | .nan, _ => .nan
  | _, .nan => .nan
  | .fin a, .inf => if 0 < a then .inf else if a < 0 then .ninf else .nan
  | .fin a, .ninf => if 0 < a then .ninf else if a < 0 then .inf else .nan
  | .inf, .fin b => if 0 < b then .inf else if b < 0 then .ninf else .nan
  | .ninf, .fin b => if 0 < b then .ninf else if b < 0 then .inf else .nan
  | .inf, .inf => .inf
  | .inf, .ninf => .ninf
  | .ninf, .inf => .ninf
  | .ninf, .ninf => .inf

/-- `MOTION_PRESETS` (motionPresets.js, lines 1–7); every base value in the
table is a number literal. -/
def MOTION_PRESETS : List (String × List (String × ℚ)) :=
  [("Static",
    [("translation_x", 0), ("translation_y", 0), ("translation_z", 0),
     ("rotation_y", 0), ("rotation_z", 0), ("fov", 70)]),
   ("Orbit",
    [("translation_z", -(1/2)), ("rotation_y", 5), ("rotation_z", 0),
     ("fov", 70)]),
   ("Tunnel",
    [("translation_z", 4/5), ("rotation_y", 0), ("rotation_z", 0),
     ("fov", 90)]),
   ("Handheld",
    [("translation_x", 1/10), ("translation_y", 1/20), ("rotation_y", 6/5),
     ("rotation_z", 4/5)]),
   ("Chaos",
    [("translation_x", 2/5), ("translation_y", -(3/10)), ("rotation_y", 8),
     ("rotation_z", 6), ("translation_z", 1/2)])]

/-- `motionPresetPayload` (motionPresets.js, lines 9–18). A non-string `name`
indexes the table through JS property-key string coercion; since every table
value is a number, the `typeof v` test in the source always multiplies. -/
def motionPresetPayload (name intensity : JSValue) : List (String × JSValue) :=
  match List.lookup (jsToString name) MOTION_PRESETS with
  | none => []
  | some base =>
    base.map fun kv => (kv.1, .num (JNum.mul (.fin kv.2) (jsToNum intensity)))

/-- `CONTROLNET_PRESETS` (controlnetMapping.js, lines 1–7). -/
def CONTROLNET_PRESETS : List (String × List (String × ℚ)) :=
  [("CN1", [("weight", 2/5), ("enabled", 1), ("bypass", 0)]),
   ("CN2", [("weight", 2/5), ("enabled", 1), ("bypass", 0)]),
   ("CN3", [("weight", 2/5), ("enabled", 1), ("bypass", 0)]),
   ("CN4", [("weight", 2/5), ("enabled", 1), ("bypass", 0)]),
   ("CN5", [("weight", 2/5), ("enabled", 1), ("bypass", 0)])]

/-- `controlnetPayload` (controlnetMapping.js, lines 9–13):
`{ slot: key, ...base, ...overrides }` built by in-order assignment. -/
def controlnetPayload (slot overrides : JSValue) : List (String × JSValue) :=
  let key := jsOr slot (.str "CN1")
  let base := (List.lookup (jsToString key) CONTROLNET_PRESETS).getD []
  let l1 := base.foldl (fun acc kv => objSet acc kv.1 (.num (.fin kv.2)))
    [("slot", key)]
  (jsEntries overrides).foldl (fun acc kv => objSet acc kv.1 kv.2) l1

end MotionPresets

section WsHandler
/-! ## WebSocket message handler (`src/unnamed/part_000`, lines 285–325)

The handler's observable effects: replies sent to the originating socket,
messages enqueued to the relay queue (only when the channel is up, `ch`),
and events broadcast to all observers. The enclosing `try`/`catch` turns a
thrown exception into no further effects (only a console log); no send
precedes a possible throw in any reachable path, so a caught throw yields
empty effects. -/

/-- A `{controlType, payload}` envelope sent to the relay queue and echoed in
the broadcast event. -/
structure QueueMsg where
  controlType : String
  payload : JSValue

/-- A `{type:"error", msg}` reply. -/
def errorReply (msg : String) : JSValue :=
  .obj [("type", .str "error"), ("msg", .str msg)]

/-- Observable effects of one handled message. -/
structure WsEffects where
  replies : List JSValue
  enqueued : List QueueMsg
  broadcasts : List JSValue

/-- The `{type:"event", msg: detail || "control forwarded", payload: msg}`
broadcast. -/
def eventObj (detail : String) (msg : QueueMsg) : JSValue :=
  .obj [("type", .str "event"),
        ("msg", .str (if detail = "" then "control forwarded" else detail)),
        ("payload",
         .obj [("controlType", .str msg.controlType),
               ("payload", msg.payload)])]

/-- The `controlType` value handed to `mapControl`. `mapControl` compares it
with `===` against string literals, so a non-string value matches no branch;
mapping non-strings to `""` (which matches no branch either, and cannot occur
here because falsy values are rejected by the schema check) preserves that. -/
def ctKey : JSValue → String
  | .str s => s
  | _ => ""

/-- The motionPreset / controlnet expansion (part_000, lines 305–316),
producing the queue envelope from the validated mapping. -/
def expandMsg (mapped : MapResult) : Except Unit QueueMsg :=
  if mapped.controlType == "motionPreset" && jsTruthy mapped.payload then do
    let name ← getProp mapped.payload "name"
    if jsTruthy name then do
      let iv ← getProp mapped.payload "intensity"
      let pp := motionPresetPayload name (jsOr iv (.num (.fin 1)))
      if pp.isEmpty then .ok ⟨mapped.controlType, mapped.payload⟩
      else .ok ⟨"liveParam", .obj pp⟩
    else .ok ⟨mapped.controlType, mapped.payload⟩
  else if mapped.controlType == "controlnet" && jsTruthy mapped.payload then do
    let slot ← getProp mapped.payload "slot"
    if jsTruthy slot then
      .ok ⟨"controlnet", .obj (controlnetPayload slot mapped.payload)⟩
    else .ok ⟨mapped.controlType, mapped.payload⟩
  else .ok ⟨mapped.controlType, mapped.payload⟩

/-- The `ws.on("message")` handler (part_000, lines 288–324), applied to the
already-JSON-parsed message `m`. `tok` is the configured shared-secret control
token (`""` when unconfigured); `ch` tells whether the relay channel is up. -/
def handleMessage (tok : String) (ch : Bool) (m : JSValue) : WsEffects :=
  match getProp m "type" with
  | .error _ => ⟨[], [], []⟩
  | .ok ty =>
  if !isStr ty "control" then ⟨[], [], []⟩
  else match getProp m "token" with
  | .error _ => ⟨[], [], []⟩
  | .ok tokv =>
  if !(tok == "") && !isStr tokv tok then
    ⟨[errorReply "unauthorized"], [], []⟩
  else match getProp m "controlType", getProp m "payload" with
  | .error _, _ => ⟨[], [], []⟩
  | _, .error _ => ⟨[], [], []⟩
  | .ok ctv, .ok pv =>
  if !jsTruthy ctv || !typeofObject pv then
    ⟨[errorReply "invalid schema"], [], []⟩
  else match mapControl (ctKey ctv) pv with
  | .error _ => ⟨[], [], []⟩
  | .ok mapped =>
  if !mapped.valid then
    ⟨[errorReply "invalid controlType or payload"], [], []⟩
  else match expandMsg mapped with
  | .error _ => ⟨[], [], []⟩
  | .ok msg =>
    ⟨[], if ch then [msg] else [], [eventObj mapped.detail msg]⟩

/-- A well-formed inbound control message as the UI sends it. -/
def controlMsg (ct : String) (payload : JSValue) : JSValue :=
  .obj [("type", .str "control"), ("controlType", .str ct),
        ("payload", payload)]

end WsHandler

section Lfo
/-! ## `POST /api/lfo/preview` waveform generator
(`src/unnamed/part_000`, lines 116–135)

The sample arithmetic is modelled over the reals. The final
`Number((…).toFixed(3))` serialization step (line 132) is decimal formatting
of the computed sample and is not modelled; the properties below concern the
computed waveform value. Request-body parsing and the clamping of `steps` are
not modelled either: `shape`, `base`, `depth`, `rate`, `steps` enter as
already-parsed values. -/

/-- Truncation toward zero, as JavaScript's `%` operator uses. -/
noncomputable def rtrunc (z : ℝ) : ℤ := if 0 ≤ z then ⌊z⌋ else ⌈z⌉

/-- The JavaScript remainder `x % y`. -/
noncomputable def jsRem (x y : ℝ) : ℝ := x - y * (rtrunc (x / y) : ℝ)

/-- The per-sample wave value (part_000, lines 127–131): dispatch on the
shape name, defaulting to sine. -/
noncomputable def lfoWave (shape : String) (phase : ℝ) : ℝ :=
  if shape = "Triangle" then 2 * Real.arcsin (Real.sin phase) / Real.pi
  else if shape = "Saw" then jsRem (phase / Real.pi) 2 - 1
  else if shape = "Square" then (if phase < Real.pi then 1 else -1)
  else Real.sin phase

/-- The phase of sample `i` (lines 125–127):
`t = (i/steps) * 2π * rate; phase = t % 2π`. -/
noncomputable def lfoPhase (rate : ℝ) (steps i : ℕ) : ℝ :=
  jsRem (((i : ℝ) / (steps : ℝ)) * (2 * Real.pi) * rate) (2 * Real.pi)

/-- Sample `i` of the preview (line 132, before serialization):
`base + wave * depth`. -/
noncomputable def lfoSampleAt (shape : String) (base depth rate : ℝ)
    (steps i : ℕ) : ℝ :=
  base + lfoWave shape (lfoPhase rate steps i) * depth

/-- Mathematical mod: the representative of `x` in `[0, y)` for `y > 0`. -/
noncomputable def realMod (x y : ℝ) : ℝ := x - y * (⌊x / y⌋ : ℝ)

/-- The shape functions exactly as the specification words them: sine is
`sin(phase)`; triangle is `(2/π)·asin(sin(phase))`; saw is
`((phase/π) mod 2) - 1`; square is `+1` for `phase < π` and `-1`
otherwise. -/
noncomputable def specShape (shape : String) (phase : ℝ) : ℝ :=
  if shape = "Triangle" then (2 / Real.pi) * Real.arcsin (Real.sin phase)
  else if shape = "Saw" then realMod (phase / Real.pi) 2 - 1
  else if shape = "Square" then (if phase < Real.pi then 1 else -1)
  else Real.sin phase

lemma rtrunc_of_nonneg {z : ℝ} (h : 0 ≤ z) : rtrunc z = ⌊z⌋ := if_pos h

lemma jsRem_of_nonneg {x y : ℝ} (hx : 0 ≤ x) (hy : 0 < y) :
    jsRem x y = x - y * (⌊x / y⌋ : ℝ) := by
  unfold jsRem
  rw [rtrunc_of_nonneg (div_nonneg hx hy.le)]

lemma jsRem_mem_Ico {x y : ℝ} (hx : 0 ≤ x) (hy : 0 < y) :
    jsRem x y ∈ Set.Ico 0 y := by
  rw [jsRem_of_nonneg hx hy]
  have h1 : (⌊x / y⌋ : ℝ) ≤ x / y := Int.floor_le _
  have h2 : x / y < ⌊x / y⌋ + 1 := Int.lt_floor_add_one _
  constructor
  · have := mul_le_mul_of_nonneg_left h1 hy.le
    calc (0:ℝ) = y * (x / y) - y * (x / y) := by ring
    _ ≤ y * (x / y) - y * (⌊x / y⌋ : ℝ) := by nlinarith
    _ = x - y * (⌊x / y⌋ : ℝ) := by rw [mul_div_cancel₀ _ (ne_of_gt hy)]
  · have := mul_lt_mul_of_pos_left h2 hy
    calc x - y * (⌊x / y⌋ : ℝ)
        = y * (x / y) - y * (⌊x / y⌋ : ℝ) := by rw [mul_div_cancel₀ _ (ne_of_gt hy)]
    _ < y := by nlinarith

lemma jsRem_eq_self {x y : ℝ} (hx : 0 ≤ x) (hxy : x < y) :
    jsRem x y = x := by
  have hy : 0 < y := lt_of_le_of_lt hx hxy
  rw [jsRem_of_nonneg hx hy]
  have : ⌊x / y⌋ = 0 := by
    rw [Int.floor_eq_zero_iff]
    exact ⟨div_nonneg hx hy.le, by rwa [div_lt_one hy]⟩
  simp [this]

end Lfo

section ModulationCaps
/-! ## Modulation-source slot caps

The UI rack operations `addMacro`/`addLfo` live in the web UI script, which is
not among the provided sources — only their test
(`docker/web/test/ui.spec.js`, "addMacro respects the six-slot cap") is. They
are therefore modelled from the specification. -/

/-- A beat-macro modulation source (spec §3, `ModulationSource`). -/
structure BeatMacro where
  id : ℕ
  target : String
  shape : String
  depth : ℚ
  speedDivision : String
  enabled : Bool

/-- An LFO modulation source (spec §3, `ModulationSource`). -/
structure Lfo where
  id : ℕ
  shape : String
  rate : ℚ
  depth : ℚ
  base : ℚ
  phase : ℚ
  target : String
  enabled : Bool

/-- Modelled from the spec: adding a beat macro to the rack ("a hard cap
(6 for macros, 8 for LFOs) bounds memory and tick cost — attempts to exceed
the cap are silently ignored (no error)"). The `addMacro` implementation is
not under src/. -/
def addMacro (rack : List BeatMacro) (m : BeatMacro) : List BeatMacro :=
  if rack.length ≥ 6 then rack else rack ++ [m]

/-- Modelled from the spec: adding an LFO to the rack, silently ignored at
the 8-slot cap. The `addLfo` implementation is not under src/. -/
def addLfo (rack : List Lfo) (l : Lfo) : List Lfo :=
  if rack.length ≥ 8 then rack else rack ++ [l]

end ModulationCaps

/-- The per-field acceptance function of the `liveParam` branch: keep an
allow-listed key whose value coerces to a finite number. -/
def liveField (kv : String × JSValue) : Option (String × JSValue) :=
  if LIVE_ALLOWED.contains kv.1 then
    (toNumber kv.2).map fun q => (kv.1, .num (.fin q))
  else none

/-- What the claim says survives: exactly the allow-listed, finitely-coercing
fields, in order, with coerced values. -/
def liveExpected (l : List (String × JSValue)) : List (String × JSValue) :=
  l.filterMap liveField

/-! ## Helper lemmas about object assignment and the liveParam loop -/

lemma objSet_of_not_mem {l : List (String × JSValue)} {k : String}
    (v : JSValue) (h : k ∉ l.map Prod.fst) : objSet l k v = l ++ [(k, v)] := by
  induction l with
  | nil => rfl
  | cons kv rest ih =>
    simp only [List.map_cons, List.mem_cons, not_or] at h
    unfold objSet
    rw [if_neg (fun he => h.1 he.symm)]
    simp [ih h.2]

lemma objSet_ne_nil (l : List (String × JSValue)) (k : String) (v : JSValue) :
    objSet l k v ≠ [] := by
  cases l with
  | nil => simp [objSet]
  | cons kv rest =>
    unfold objSet
    split <;> simp

lemma lookup_objSet (l : List (String × JSValue)) (k : String) (v : JSValue) :
    List.lookup k (objSet l k v) = some v := by
  induction l with
  | nil => simp [objSet, List.lookup]
  | cons kv rest ih =>
    unfold objSet
    by_cases h : kv.1 = k
    · simp only [h, if_pos rfl]
      simp [List.lookup]
    · rw [if_neg h]
      have hbeq : (k == kv.1) = false := by
        simp only [beq_eq_false_iff_ne, ne_eq]
        exact fun he => h he.symm
      simp [List.lookup, hbeq, ih]

lemma liveClean_append (l : List (String × JSValue)) :
    ∀ acc : List (String × JSValue),
    (∀ k, k ∈ l.map Prod.fst → k ∉ acc.map Prod.fst) →
    (l.map Prod.fst).Nodup →
    liveClean acc l = acc ++ liveExpected l := by
  induction l with
  | nil => intro acc _ _; simp [liveClean, liveExpected]
  | cons kv rest ih =>
    intro acc hdisj hnd
    obtain ⟨k, v⟩ := kv
    simp only [List.map_cons, List.nodup_cons] at hnd
    have hk_acc : k ∉ acc.map Prod.fst := hdisj k (by simp)
    have hrest_disj : ∀ x, x ∈ rest.map Prod.fst → x ∉ acc.map Prod.fst :=
      fun x hx => hdisj x (by simp [hx])
    unfold liveClean liveExpected
    simp only [List.filterMap_cons]
    by_cases hall : LIVE_ALLOWED.contains k
    · rw [if_pos hall]
      cases hnum : toNumber v with
      | some q =>
        show liveClean (objSet acc k (.num (.fin q))) rest = _
        have hdisj2 : ∀ x, x ∈ rest.map Prod.fst →
            x ∉ (acc ++ [(k, JSValue.num (.fin q))]).map Prod.fst := by
          intro x hx
          simp only [List.map_append, List.mem_append, not_or, List.map_cons,
            List.map_nil, List.mem_singleton]
          exact ⟨hrest_disj x hx, fun he => hnd.1 (he ▸ hx)⟩
        rw [objSet_of_not_mem _ hk_acc]
        rw [ih _ hdisj2 hnd.2]
        have hmem : k ∈ LIVE_ALLOWED := by simpa using hall
        simp [liveField, liveExpected, hmem, hnum]
      | none =>
        show liveClean acc rest = _
        rw [ih acc hrest_disj hnd.2]
        have hmem : k ∈ LIVE_ALLOWED := by simpa using hall
        simp [liveField, liveExpected, hmem, hnum]
    · rw [if_neg hall]
      have hmem : k ∉ LIVE_ALLOWED := by simpa using hall
      show liveClean acc rest = _
      rw [ih acc hrest_disj hnd.2]
      simp [liveField, liveExpected, hmem]

lemma getProp_ok {s : JSValue} (k : String)
    (h0 : s ≠ JSValue.null) (h1 : s ≠ JSValue.undefined) :
    ∃ v, getProp s k = .ok v := by
  cases s with
  | null => exact absurd rfl h0
  | undefined => exact absurd rfl h1
  | obj l => exact ⟨_, rfl⟩
  | bool b => exact ⟨_, rfl⟩
  | num n => exact ⟨_, rfl⟩
  | str t => exact ⟨_, rfl⟩
  | arr xs => exact ⟨_, rfl⟩

lemma slotsMap_ok (slots : List JSValue)
    (h : ∀ s ∈ slots, s ≠ JSValue.null ∧ s ≠ JSValue.undefined) :
    ∃ ps, slotsMap slots = .ok ps := by
  induction slots with
  | nil => exact ⟨[], rfl⟩
  | cons s rest ih =>
    obtain ⟨hs0, hs1⟩ := h s (by simp)
    obtain ⟨t, ht⟩ := getProp_ok "t" hs0 hs1
    obtain ⟨m, hm⟩ := getProp_ok "mix" hs0 hs1
    obtain ⟨ps, hps⟩ := ih (fun x hx => h x (by simp [hx]))
    refine ⟨(jsToNum t, jsToNum m) :: ps, ?_⟩
    simp only [slotsMap, ht, hm, hps]
    rfl

lemma ok_bind {β γ : Type} (x : β) (f : β → Except Unit γ) :
    (Except.ok x : Except Unit β) >>= f = f x := rfl

lemma isEmpty_objSet (l : List (String × JSValue)) (k : String) (v : JSValue) :
    (objSet l k v).isEmpty = false := by
  cases l with
  | nil => rfl
  | cons kv rest =>
    unfold objSet
    split <;> rfl

/-! ## Claims about the Control Validator/Mapper -/

/-- C1: the claim states that `validate` (`mapControl`) passes `controlnet`
payloads through with `valid=true` once the discriminator field is present,
as it does for `motionPreset` and `paramSource`. The code rejects
`controlnet`: the pass-through branch (controlMapping.js, line 80) names
`motionStyle`, not `controlnet`, so a controlnet message carrying its `slot`
discriminator falls to the unknown branch, and the server's own controlnet
expansion branch (part_000, lines 312–316) is unreachable — the handler
replies "invalid controlType or payload" and forwards nothing. -/
theorem C1_controlnet_rejected :
    mapControl "controlnet" (.obj [("slot", .str "CN1")]) =
      .ok ⟨"controlnet", .obj [], false, "unknown"⟩ ∧
    mapControl "paramSource" (.obj [("slot", .str "CN1")]) =
      .ok ⟨"paramSource", .obj [("slot", .str "CN1")], true, "paramSource"⟩ ∧
    handleMessage "" true
        (controlMsg "controlnet" (.obj [("slot", .str "CN1")])) =
      ⟨[errorReply "invalid controlType or payload"], [], []⟩ :=
  ⟨rfl, rfl, rfl⟩

/-- C2 quantifies over the vocabulary {liveParam, prompts, transport,
motionPreset, controlnet, paramSource}; the code's pass-through list instead
holds `motionStyle` (and not `controlnet`), so the control type
`motionStyle` — outside the claimed vocabulary — is accepted with
`valid=true`, refuting the claim as stated. -/
theorem C2_counterexample :
    ("motionStyle" ∉ ["liveParam", "prompts", "transport", "motionPreset",
      "controlnet", "paramSource"]) ∧
    mapControl "motionStyle" (.obj []) =
      .ok ⟨"motionStyle", .obj [], true, "motionStyle"⟩ :=
  ⟨by decide, rfl⟩

/-- C2 (amended): for every controlType outside the vocabulary accepted by
the code — {liveParam, prompts, transport, motionPreset, paramSource,
motionStyle} — and every payload, `mapControl` returns `valid=false` and an
empty payload object. (`controlnet` is outside this vocabulary, hence
rejected.) -/
theorem C2_unknown_rejected (ct : String) (payload : JSValue)
    (h : ct ∉ ["liveParam", "prompts", "transport", "motionPreset",
      "paramSource", "motionStyle"]) :
    mapControl ct payload = .ok ⟨ct, .obj [], false, "unknown"⟩ := by
  have h1 : ¬ ct = "liveParam" := fun he => h (by rw [he]; decide)
  have h2 : ¬ ct = "prompts" := fun he => h (by rw [he]; decide)
  have h3 : ¬ ct = "transport" := fun he => h (by rw [he]; decide)
  have h4 : ¬ ct = "motionPreset" := fun he => h (by rw [he]; decide)
  have h5 : ¬ ct = "paramSource" := fun he => h (by rw [he]; decide)
  have h6 : ¬ ct = "motionStyle" := fun he => h (by rw [he]; decide)
  simp [mapControl, h1, h2, h3, h4, h5, h6]

/-- Witness for C2 at the concrete unknown control type "nonsense" with a
null payload. -/
theorem C2_witness :
    ("nonsense" ∉ ["liveParam", "prompts", "transport", "motionPreset",
      "paramSource", "motionStyle"]) ∧
    mapControl "nonsense" .null = .ok ⟨"nonsense", .obj [], false, "unknown"⟩ :=
  ⟨by decide, C2_unknown_rejected "nonsense" .null (by decide)⟩

/-- C3: the claim says `validate` never throws for any controlType and any
rawPayload, including null. But the `prompts` branch reads
`payload.prompt_schedule` (controlMapping.js, line 59) and the `transport`
branch reads `payload.action` (line 72) directly on the raw payload, which
throws a TypeError when the payload is null — and null payloads reach
`mapControl`, because the handler's schema check admits them
(`typeof null === "object"`). -/
theorem C3_null_payload_throws :
    mapControl "prompts" .null = .error () ∧
    mapControl "transport" .null = .error () :=
  ⟨rfl, rfl⟩

/-- C4: for every liveParam payload object (with the distinct keys a JS
object intrinsically has), the validated payload holds exactly the input
fields whose key is in the Parameter Registry allow-list and whose value
coerces to a finite number, in order, each mapped to the coerced numeric
value, and the result is valid iff at least one field survives. -/
theorem C4_liveParam_exact (l : List (String × JSValue))
    (h : (l.map Prod.fst).Nodup) :
    mapControl "liveParam" (.obj l) =
      .ok ⟨"liveParam", .obj (liveExpected l), !(liveExpected l).isEmpty,
        "liveParam"⟩ := by
  have hmain := liveClean_append l [] (by simp) h
  simp only [List.nil_append] at hmain
  simp [mapControl, jsOr, jsTruthy, jsEntries, hmain]

/-- Witness for C4: the spec's end-to-end scenario 1 — `{cfg:"7.5", junk:1}`
validates to `{cfg:7.5}` with `junk` dropped and the message valid. -/
theorem C4_witness :
    (([("cfg", JSValue.str "7.5"), ("junk", JSValue.num (.fin 1))].map
      Prod.fst).Nodup) ∧
    mapControl "liveParam"
        (.obj [("cfg", .str "7.5"), ("junk", .num (.fin 1))]) =
      .ok ⟨"liveParam", .obj [("cfg", .num (.fin (15/2)))], true,
        "liveParam"⟩ := by
  refine ⟨by decide, ?_⟩
  rw [C4_liveParam_exact _ (by decide)]
  simp [liveExpected, liveField, toNumber, jsToNum, strToNum, trimChars,
    splitDot, decVal, LIVE_ALLOWED, PARAM_FLAGS]
  norm_num

/-- C9 as stated quantifies over every prompts payload whose prompt_schedule
field is an array; with a null entry in that array the per-slot mapping reads
`slot.t` (controlMapping.js, line 62) and throws, so no validated output —
with or without the key — is produced. -/
theorem C9_counterexample :
    mapControl "prompts" (.obj [("prompt_schedule", .arr [JSValue.null])]) =
      .error () := rfl

/-- C9 (amended): for every prompts payload object whose `prompt_schedule`
field is an array all of whose entries are property-accessible (neither null
nor undefined), the validated payload always carries a `prompt_schedule`
key — even when filtering drops every entry, leaving an empty array — and so
the result is `valid=true` even if no other field was accepted. -/
theorem C9_schedule_key (l : List (String × JSValue)) (slots : List JSValue)
    (hps : List.lookup "prompt_schedule" l = some (.arr slots))
    (hok : ∀ s ∈ slots, s ≠ JSValue.null ∧ s ≠ JSValue.undefined) :
    ∃ r entries sched, mapControl "prompts" (.obj l) = .ok r ∧
      r.payload = .obj entries ∧
      List.lookup "prompt_schedule" entries = some (.arr sched) ∧
      r.valid = true := by
  obtain ⟨ps, hps2⟩ := slotsMap_ok slots hok
  refine ⟨⟨"prompts",
    .obj (objSet (promptClean [] l) "prompt_schedule" (.arr (filterSlots ps))),
    true, "prompts"⟩, _, filterSlots ps, ?_, rfl, lookup_objSet _ _ _, rfl⟩
  show mapControl "prompts" (.obj l) = _
  simp only [mapControl, jsOr, jsTruthy, jsEntries, getProp, hps,
    Option.getD_some, reduceIte, String.reduceEq, ok_bind]
  simp only [hps2, ok_bind]
  rw [isEmpty_objSet]
  rfl

/-- Witness for C9: an empty schedule array — the key is still placed and
the message is valid although no other field was accepted. -/
theorem C9_witness :
    ∃ r entries sched,
      mapControl "prompts" (.obj [("prompt_schedule", .arr [])]) = .ok r ∧
      r.payload = .obj entries ∧
      List.lookup "prompt_schedule" entries = some (.arr sched) ∧
      r.valid = true :=
  C9_schedule_key [("prompt_schedule", .arr [])] [] rfl (by simp)

/-! ## Claims about the WebSocket handler -/

/-- C7: whenever a non-empty shared-secret control token is configured, every
inbound control message (type "control") whose token field differs from the
configured token gets exactly the single reply
`{type:"error", msg:"unauthorized"}`: nothing is enqueued to the relay queue
and nothing is broadcast to observers, whether or not the channel is up. -/
theorem C7_unauthorized (tok : String) (ch : Bool)
    (l : List (String × JSValue))
    (htok : tok ≠ "")
    (hty : List.lookup "type" l = some (.str "control"))
    (hmis : isStr ((List.lookup "token" l).getD .undefined) tok = false) :
    handleMessage tok ch (.obj l) = ⟨[errorReply "unauthorized"], [], []⟩ := by
  have htokb : (tok == "") = false := by simpa using htok
  simp [handleMessage, getProp, hty, htokb, hmis]
  rfl

/-- Witness for C7: a session configured with token "secret" receives a
control message bearing token "wrong"; the only effect is the unauthorized
error reply. -/
theorem C7_witness :
    handleMessage "secret" true
        (.obj [("type", .str "control"), ("token", .str "wrong"),
               ("controlType", .str "transport"),
               ("payload", .obj [("action", .str "play")])]) =
      ⟨[errorReply "unauthorized"], [], []⟩ :=
  C7_unauthorized "secret" true _ (by decide) rfl rfl

lemma handleMessage_mp (ch : Bool) (l : List (String × JSValue)) :
    handleMessage "" ch (controlMsg "motionPreset" (.obj l)) =
      match expandMsg ⟨"motionPreset", .obj l, true, "motionPreset"⟩ with
      | .error _ => ⟨[], [], []⟩
      | .ok msg => ⟨[], if ch then [msg] else [],
          [eventObj "motionPreset" msg]⟩ := rfl

lemma jsTruthy_obj (l : List (String × JSValue)) :
    jsTruthy (.obj l) = true := rfl

lemma expandMsg_mp_truthy (l : List (String × JSValue)) (nm iv : JSValue)
    (hname : List.lookup "name" l = some nm)
    (hint : List.lookup "intensity" l = some iv)
    (hnm : jsTruthy nm = true)
    (hiv : jsTruthy iv = true) :
    expandMsg ⟨"motionPreset", .obj l, true, "motionPreset"⟩ =
      .ok (if (motionPresetPayload nm iv).isEmpty then ⟨"motionPreset", .obj l⟩
           else ⟨"liveParam", .obj (motionPresetPayload nm iv)⟩) := by
  by_cases hpp : (motionPresetPayload nm iv).isEmpty <;>
    simp [expandMsg, getProp, hname, hint, hnm, hiv, jsOr, jsTruthy_obj,
      ok_bind, hpp]

lemma expandMsg_mp_falsy (l : List (String × JSValue)) (nm : JSValue)
    (hname : List.lookup "name" l = some nm)
    (hnm : jsTruthy nm = false) :
    expandMsg ⟨"motionPreset", .obj l, true, "motionPreset"⟩ =
      .ok ⟨"motionPreset", .obj l⟩ := by
  simp [expandMsg, getProp, hname, hnm, jsOr, jsTruthy_obj, ok_bind]

lemma expandMsg_mp_named (l : List (String × JSValue)) (nm iv : JSValue)
    (hname : List.lookup "name" l = some nm)
    (hint : List.lookup "intensity" l = some iv)
    (hnm : jsTruthy nm = true) :
    expandMsg ⟨"motionPreset", .obj l, true, "motionPreset"⟩ =
      .ok (if (motionPresetPayload nm (jsOr iv (.num (.fin 1)))).isEmpty then
            ⟨"motionPreset", .obj l⟩
          else
            ⟨"liveParam",
             .obj (motionPresetPayload nm (jsOr iv (.num (.fin 1))))⟩) := by
  by_cases hpp : (motionPresetPayload nm (jsOr iv (.num (.fin 1)))).isEmpty <;>
    simp [expandMsg, getProp, hname, hint, hnm, jsTruthy_obj, ok_bind, hpp]

lemma motionPresetPayload_known (s : String) (q : ℚ)
    (base : List (String × ℚ))
    (hbase : List.lookup s MOTION_PRESETS = some base) :
    motionPresetPayload (.str s) (.num (.fin q)) =
      base.map fun kv => (kv.1, .num (.fin (kv.2 * q))) := by
  simp [motionPresetPayload, jsToString, hbase, jsToNum, JNum.mul]

lemma motionPresetPayload_unknown (s : String) (iv : JSValue)
    (hbase : List.lookup s MOTION_PRESETS = none) :
    motionPresetPayload (.str s) iv = [] := by
  simp [motionPresetPayload, jsToString, hbase]

lemma lookup_mp_facts {s : String} {base : List (String × ℚ)}
    (h : List.lookup s MOTION_PRESETS = some base) :
    jsTruthy (.str s) = true ∧ base.isEmpty = false := by
  by_cases h1 : s = "Static"
  · subst h1
    simp [MOTION_PRESETS, List.lookup] at h
    subst h
    exact ⟨rfl, rfl⟩
  by_cases h2 : s = "Orbit"
  · subst h2
    simp [MOTION_PRESETS, List.lookup] at h
    subst h
    exact ⟨rfl, rfl⟩
  by_cases h3 : s = "Tunnel"
  · subst h3
    simp [MOTION_PRESETS, List.lookup] at h
    subst h
    exact ⟨rfl, rfl⟩
  by_cases h4 : s = "Handheld"
  · subst h4
    simp [MOTION_PRESETS, List.lookup] at h
    subst h
    exact ⟨rfl, rfl⟩
  by_cases h5 : s = "Chaos"
  · subst h5
    simp [MOTION_PRESETS, List.lookup] at h
    subst h
    exact ⟨rfl, rfl⟩
  have b1 : (s == "Static") = false := by simpa using h1
  have b2 : (s == "Orbit") = false := by simpa using h2
  have b3 : (s == "Tunnel") = false := by simpa using h3
  have b4 : (s == "Handheld") = false := by simpa using h4
  have b5 : (s == "Chaos") = false := by simpa using h5
  simp [MOTION_PRESETS, List.lookup, b1, b2, b3, b4, b5] at h

/-- C10 claims that a motionPreset message with a known preset name and
numeric intensity is forwarded as a `liveParam` whose every field is the
preset base value times the intensity. The code reads the intensity through
`mapped.payload.intensity || 1` (part_000, line 307), so the number `0` —
being falsy — is replaced by `1`: with preset Orbit and intensity 0 the
forwarded `translation_z` is the base value `-1/2`, not
`base * intensity = 0`, refuting the claim as stated. -/
theorem C10_counterexample :
    handleMessage "" true (controlMsg "motionPreset"
        (.obj [("name", .str "Orbit"), ("intensity", .num (.fin 0))])) =
      ⟨[], [⟨"liveParam", .obj [("translation_z", .num (.fin (-(1/2)))),
        ("rotation_y", .num (.fin 5)), ("rotation_z", .num (.fin 0)),
        ("fov", .num (.fin 70))]⟩],
       [eventObj "motionPreset"
         ⟨"liveParam", .obj [("translation_z", .num (.fin (-(1/2)))),
          ("rotation_y", .num (.fin 5)), ("rotation_z", .num (.fin 0)),
          ("fov", .num (.fin 70))]⟩]⟩ ∧
    (-(1/2) : ℚ) ≠ -(1/2) * 0 := by
  constructor
  · rw [handleMessage_mp]
    rw [expandMsg_mp_named
      [("name", .str "Orbit"), ("intensity", .num (.fin 0))]
      (.str "Orbit") (.num (.fin 0)) rfl rfl rfl]
    have hor : jsOr (.num (.fin 0)) (.num (.fin 1)) = .num (.fin 1) := by
      simp [jsOr, jsTruthy]
    rw [hor, motionPresetPayload_known "Orbit" 1
      [("translation_z", -(1/2)), ("rotation_y", 5), ("rotation_z", 0),
       ("fov", 70)] rfl]
    norm_num
  · norm_num

/-- C10 (amended): for every motionPreset control message whose
`payload.name` is a string and whose `payload.intensity` is a nonzero finite
number q (zero and NaN intensities are falsy and fall back to 1), the
forwarded/broadcast message for a known preset name has controlType
`liveParam` with every field equal to the preset's base value times q, and
for an unknown preset name the expansion is empty and the message is
forwarded unchanged as motionPreset. -/
theorem C10_preset_expansion (ch : Bool) (l : List (String × JSValue))
    (s : String) (q : ℚ)
    (hname : List.lookup "name" l = some (.str s))
    (hint : List.lookup "intensity" l = some (.num (.fin q)))
    (hq : q ≠ 0) :
    (∀ base, List.lookup s MOTION_PRESETS = some base →
      handleMessage "" ch (controlMsg "motionPreset" (.obj l)) =
        ⟨[], if ch then [⟨"liveParam",
            .obj (base.map fun kv => (kv.1, .num (.fin (kv.2 * q))))⟩] else [],
         [eventObj "motionPreset" ⟨"liveParam",
            .obj (base.map fun kv => (kv.1, .num (.fin (kv.2 * q))))⟩]⟩) ∧
    (List.lookup s MOTION_PRESETS = none →
      handleMessage "" ch (controlMsg "motionPreset" (.obj l)) =
        ⟨[], if ch then [⟨"motionPreset", .obj l⟩] else [],
         [eventObj "motionPreset" ⟨"motionPreset", .obj l⟩]⟩) := by
  have hqor : jsOr (.num (.fin q)) (.num (.fin 1)) = .num (.fin q) := by
    simp [jsOr, jsTruthy, hq]
  constructor
  · intro base hbase
    obtain ⟨hs, hbne⟩ := lookup_mp_facts hbase
    rw [handleMessage_mp,
      expandMsg_mp_named _ (.str s) (.num (.fin q)) hname hint hs, hqor,
      motionPresetPayload_known s q base hbase]
    have hmapne : ((base.map fun kv =>
        (kv.1, JSValue.num (.fin (kv.2 * q)))).isEmpty) = false := by
      cases base with
      | nil => simp at hbne
      | cons b bs => rfl
    rw [hmapne]
    rfl
  · intro hnone
    by_cases hs : s = ""
    · subst hs
      rw [handleMessage_mp, expandMsg_mp_falsy l (.str "") hname rfl]
    · have hst : jsTruthy (.str s) = true := by simp [jsTruthy, hs]
      rw [handleMessage_mp,
        expandMsg_mp_named _ (.str s) (.num (.fin q)) hname hint hst, hqor,
        motionPresetPayload_unknown s _ hnone]
      rfl

/-- Witness for C10: preset Orbit at intensity 2 is forwarded (and broadcast)
as a liveParam whose fields are the Orbit base values doubled. -/
theorem C10_witness :
    handleMessage "" true (controlMsg "motionPreset"
        (.obj [("name", .str "Orbit"), ("intensity", .num (.fin 2))])) =
      ⟨[], [⟨"liveParam", .obj [("translation_z", .num (.fin (-1))),
        ("rotation_y", .num (.fin 10)), ("rotation_z", .num (.fin 0)),
        ("fov", .num (.fin 140))]⟩],
       [eventObj "motionPreset"
         ⟨"liveParam", .obj [("translation_z", .num (.fin (-1))),
          ("rotation_y", .num (.fin 10)), ("rotation_z", .num (.fin 0)),
          ("fov", .num (.fin 140))]⟩]⟩ := by
  have h := (C10_preset_expansion true
    [("name", .str "Orbit"), ("intensity", .num (.fin 2))] "Orbit" 2
    rfl rfl (by norm_num)).1
    [("translation_z", -(1/2)), ("rotation_y", 5), ("rotation_z", 0),
     ("fov", 70)] rfl
  rw [h]
  norm_num

/-! ## Claims about the LFO preview generator -/

lemma lfoPhase_mem (rate : ℝ) (steps i : ℕ) (hrate : 0 ≤ rate) :
    lfoPhase rate steps i ∈ Set.Ico 0 (2 * Real.pi) := by
  unfold lfoPhase
  apply jsRem_mem_Ico _ Real.two_pi_pos
  have h1 : (0:ℝ) ≤ (i : ℝ) / (steps : ℝ) * (2 * Real.pi) := by positivity
  exact mul_nonneg h1 hrate

lemma lfoWave_abs_le (shape : String) {φ : ℝ}
    (h0 : 0 ≤ φ) (h2 : φ < 2 * Real.pi) : |lfoWave shape φ| ≤ 1 := by
  unfold lfoWave
  split_ifs with h1 hsaw hsq hφ
  · have ha1 : Real.arcsin (Real.sin φ) ≤ Real.pi / 2 :=
      Real.arcsin_le_pi_div_two _
    have ha2 : -(Real.pi / 2) ≤ Real.arcsin (Real.sin φ) :=
      Real.neg_pi_div_two_le_arcsin _
    have hπ : 0 < Real.pi := Real.pi_pos
    rw [abs_le]
    constructor
    · rw [le_div_iff₀ hπ]
      linarith
    · rw [div_le_iff₀ hπ]
      linarith
  · have hπ : 0 < Real.pi := Real.pi_pos
    have hd0 : 0 ≤ φ / Real.pi := div_nonneg h0 hπ.le
    have hd2 : φ / Real.pi < 2 := by rw [div_lt_iff₀ hπ]; linarith
    rw [jsRem_eq_self hd0 hd2, abs_le]
    constructor
    · linarith
    · linarith
  · norm_num
  · norm_num
  · rw [abs_le]
    exact ⟨Real.neg_one_le_sin φ, Real.sin_le_one φ⟩

/-- C5 claims every sample lies in `[base - depth, base + depth]`; `depth` is
any parsed float, and with a negative depth (e.g. -1) that interval is empty:
the Sine sample at phase pi/2 with base 0, depth -1 is -1, while the claim
demands `0 - (-1) = 1 ≤ sample`. -/
theorem C5_counterexample :
    ¬ ((0:ℝ) - (-1) ≤ lfoSampleAt "Sine" 0 (-1) 1 4 1 ∧
       lfoSampleAt "Sine" 0 (-1) 1 4 1 ≤ 0 + (-1)) := by
  have hphase : lfoPhase 1 4 1 = Real.pi / 2 := by
    unfold lfoPhase
    have ht : ((1:ℕ) : ℝ) / ((4:ℕ) : ℝ) * (2 * Real.pi) * 1 = Real.pi / 2 := by
      push_cast
      ring
    rw [ht]
    apply jsRem_eq_self (by positivity)
    linarith [Real.pi_pos]
  have hw : lfoWave "Sine" (Real.pi / 2) = Real.sin (Real.pi / 2) := rfl
  have hsample : lfoSampleAt "Sine" 0 (-1) 1 4 1 = -1 := by
    unfold lfoSampleAt
    rw [hphase, hw, Real.sin_pi_div_two]
    norm_num
  rw [hsample]
  norm_num

/-- C5 (amended): for every shape, base, depth and nonnegative rate, every
sample of the LFO preview lies within `[base - |depth|, base + |depth|]`.
(With a negative rate the Saw branch can escape even this band, since the
JS remainder then yields a phase in `(-2pi, 0]`.) -/
theorem C5_bounded (shape : String) (base depth rate : ℝ) (steps i : ℕ)
    (hrate : 0 ≤ rate) :
    |lfoSampleAt shape base depth rate steps i - base| ≤ |depth| := by
  obtain ⟨h0, h2⟩ := lfoPhase_mem rate steps i hrate
  unfold lfoSampleAt
  rw [add_sub_cancel_left, abs_mul]
  calc |lfoWave shape (lfoPhase rate steps i)| * |depth| ≤ 1 * |depth| :=
        mul_le_mul_of_nonneg_right (lfoWave_abs_le shape h0 h2) (abs_nonneg _)
    _ = |depth| := one_mul _

/-- Witness for C5: a Square sample with base 3, depth 2 stays within
distance 2 of the base. -/
theorem C5_witness :
    (0:ℝ) ≤ 1 ∧ |lfoSampleAt "Square" 3 2 1 8 0 - 3| ≤ |(2:ℝ)| :=
  ⟨by norm_num, C5_bounded "Square" 3 2 1 8 0 (by norm_num)⟩


/-- C6 claims every sample is `base + depth * shape(phase)` with the phase
taken on a 0-2pi cycle. With a negative rate (reachable, since
`parseFloat(req.body.rate)` accepts negatives) the accumulated `t` is
negative, the JS remainder yields a negative phase, and for the Saw shape the
produced sample differs from the claimed formula at the 0-2pi representative
of the cycle: at base 0, depth 1, rate -1, steps 8, sample 1 the code yields
-5/4 while the claimed formula yields 3/4. -/
theorem C6_counterexample :
    lfoSampleAt "Saw" 0 1 (-1) 8 1 ≠
      0 + 1 * specShape "Saw"
        (realMod (((1:ℕ) : ℝ) / ((8:ℕ) : ℝ) * (2 * Real.pi) * (-1))
          (2 * Real.pi)) := by
  have hπ : (0:ℝ) < Real.pi := Real.pi_pos
  have hπne : Real.pi ≠ 0 := ne_of_gt hπ
  have ht : ((1:ℕ) : ℝ) / ((8:ℕ) : ℝ) * (2 * Real.pi) * (-1) =
      -(Real.pi / 4) := by
    push_cast
    ring
  have hq1 : -(Real.pi / 4) / (2 * Real.pi) = -(1/8) := by
    rw [div_eq_iff (ne_of_gt Real.two_pi_pos)]
    ring
  have hr1 : rtrunc (-(Real.pi / 4) / (2 * Real.pi)) = 0 := by
    unfold rtrunc
    rw [hq1, if_neg (by norm_num)]
    norm_num
  have hphase : lfoPhase (-1) 8 1 = -(Real.pi / 4) := by
    unfold lfoPhase jsRem
    rw [ht, hr1]
    push_cast
    ring
  have hq2 : -(Real.pi / 4) / Real.pi = -(1/4) := by
    rw [div_eq_iff hπne]
    ring
  have hr2 : rtrunc (-(Real.pi / 4) / Real.pi / 2) = 0 := by
    unfold rtrunc
    rw [hq2]
    rw [if_neg (by norm_num)]
    norm_num
  have hwave : lfoWave "Saw" (-(Real.pi / 4)) = -(5/4) := by
    have hsaw : lfoWave "Saw" (-(Real.pi / 4)) =
        jsRem (-(Real.pi / 4) / Real.pi) 2 - 1 := rfl
    rw [hsaw]
    unfold jsRem
    rw [hr2, hq2]
    norm_num
  have hlhs : lfoSampleAt "Saw" 0 1 (-1) 8 1 = -(5/4) := by
    unfold lfoSampleAt
    rw [hphase, hwave]
    ring
  have hfl : ⌊-(Real.pi / 4) / (2 * Real.pi)⌋ = -1 := by
    rw [hq1]
    norm_num
  have hmod : realMod (-(Real.pi / 4)) (2 * Real.pi) = 7/4 * Real.pi := by
    unfold realMod
    rw [hfl]
    push_cast
    ring
  have hq3 : (7/4 * Real.pi) / Real.pi = 7/4 := by
    rw [mul_div_assoc, div_self hπne, mul_one]
  have hfl2 : ⌊(7:ℝ)/4 / 2⌋ = 0 := by norm_num
  have hrhs : specShape "Saw" (7/4 * Real.pi) = 3/4 := by
    have hsp : specShape "Saw" (7/4 * Real.pi) =
        realMod ((7/4 * Real.pi) / Real.pi) 2 - 1 := rfl
    rw [hsp]
    unfold realMod
    rw [hq3, hfl2]
    norm_num
  rw [hlhs, ht, hmod, hrhs]
  norm_num

/-- C6 (amended): for every shape, base, depth and nonnegative rate (so the
phase `t % 2pi` indeed lies on the 0-2pi cycle), each sample equals
`base + depth * shape(phase)` with the shape functions exactly as the
specification words them: sine is `sin(phase)`, triangle is
`(2/pi) * asin(sin(phase))`, saw is `((phase/pi) mod 2) - 1`, square is `+1`
for `phase < pi` and `-1` otherwise, and unknown shape names fall back to
sine. -/
theorem C6_sample_eq (shape : String) (base depth rate : ℝ) (steps i : ℕ)
    (hrate : 0 ≤ rate) :
    lfoSampleAt shape base depth rate steps i =
      base + depth * specShape shape (lfoPhase rate steps i) := by
  obtain ⟨h0, h2⟩ := lfoPhase_mem rate steps i hrate
  unfold lfoSampleAt lfoWave specShape
  split_ifs with h1 hsaw hsq hφ
  · ring
  · have hπ : 0 < Real.pi := Real.pi_pos
    have hd0 : 0 ≤ lfoPhase rate steps i / Real.pi :=
      div_nonneg h0 hπ.le
    have hd2 : lfoPhase rate steps i / Real.pi < 2 := by
      rw [div_lt_iff₀ hπ]
      linarith
    have hjs : jsRem (lfoPhase rate steps i / Real.pi) 2 =
        lfoPhase rate steps i / Real.pi := jsRem_eq_self hd0 hd2
    have hrm : realMod (lfoPhase rate steps i / Real.pi) 2 =
        lfoPhase rate steps i / Real.pi := by
      unfold realMod
      have hz : ⌊lfoPhase rate steps i / Real.pi / 2⌋ = 0 := by
        rw [Int.floor_eq_zero_iff]
        constructor
        · positivity
        · linarith [hd2]
      rw [hz]
      push_cast
      ring
    rw [hjs, hrm]
    ring
  · ring
  · ring
  · ring

/-- Witness for C6: a Saw sample at base 2, depth 3, rate 1 matches the
spec's formula at the computed phase. -/
theorem C6_witness :
    (0:ℝ) ≤ 1 ∧ lfoSampleAt "Saw" 2 3 1 8 1 =
      2 + 3 * specShape "Saw" (lfoPhase 1 8 1) :=
  ⟨by norm_num, C6_sample_eq "Saw" 2 3 1 8 1 (by norm_num)⟩

/-! ## Claim about the modulation-source slot caps -/

/-- C8: adding a modulation source beyond the hard cap (6 beat macros,
8 LFOs) is a no-op — the rack length is unchanged, and no error is raised
(the operations are total functions). -/
theorem C8_caps (macros : List BeatMacro) (m : BeatMacro)
    (lfos : List Lfo) (lf : Lfo)
    (hm : 6 ≤ macros.length) (hl : 8 ≤ lfos.length) :
    (addMacro macros m).length = macros.length ∧
    (addLfo lfos lf).length = lfos.length := by
  constructor <;> simp [addMacro, addLfo, hm, hl]

/-- Witness for C8: racks already at the caps (6 macros, 8 LFOs) are
unchanged by a further add. -/
theorem C8_witness :
    6 ≤ (List.replicate 6
      (⟨0, "cfg", "sine", 1, "quarter", true⟩ : BeatMacro)).length ∧
    8 ≤ (List.replicate 8
      (⟨0, "sine", 1, 1, 0, 0, "cfg", true⟩ : Lfo)).length ∧
    (addMacro (List.replicate 6 ⟨0, "cfg", "sine", 1, "quarter", true⟩)
      ⟨1, "cfg", "sine", 1, "quarter", true⟩).length = 6 ∧
    (addLfo (List.replicate 8 ⟨0, "sine", 1, 1, 0, 0, "cfg", true⟩)
      ⟨1, "sine", 1, 1, 0, 0, "cfg", true⟩).length = 8 := by
  have h := C8_caps (List.replicate 6 ⟨0, "cfg", "sine", 1, "quarter", true⟩)
    ⟨1, "cfg", "sine", 1, "quarter", true⟩
    (List.replicate 8 ⟨0, "sine", 1, 1, 0, 0, "cfg", true⟩)
    ⟨1, "sine", 1, 1, 0, 0, "cfg", true⟩ (by simp) (by simp)
  refine ⟨by simp, by simp, ?_, ?_⟩
  · rw [h.1]
    simp
  · rw [h.2]
    simp
